import Mathlib

/-!
Verification development for the csv2sheet repository (src/update-sheet.py).

The script reads CSV files with pandas, parses each into a date label, a
7-entry header row and a list of 7-entry data rows, and inserts the block
at column `START_COL` of a Google worksheet, shifting prior content right
by `BLOCK_WIDTH` columns, then merges the label cells.

Modelling conventions:
* A `PCell` is one cell of the pandas DataFrame returned by
  `pd.read_csv(path, header=None)`: `na` for a missing/empty field (pandas
  NaN), `str` for a textual field, `int`/`rat` for fields in columns that
  pandas inferred as numeric (floats are modelled as rationals; the model
  omits non-finite floats, exponent literals, and underscore separators,
  none of which the claims exercise).
* A `PTable` is the DataFrame: a list of rows; `iloc` pads short rows with
  `na` exactly as pandas pads ragged CSV rows, `shape1` is the column count.
* A `Cell` is a value held by the spreadsheet grid: what `convert_cell`
  produces, or a string read back from the sheet. `Cell.nan` is the float
  NaN that `convert_cell` returns for a pandas NaN input (float(nan)
  succeeds and nan.is_integer() is False, so the NaN is returned as-is).
* The remote sheet is modelled as the list-of-rows grid of its cell values
  plus the list of merge requests issued; reading the grid back returns the
  stored values (display-level stringification by the remote service is
  outside the repository and value-agnostic for the layout logic).
-/

namespace CsvSheet

/-- Column J (0-indexed) where the new block is inserted. -/
def START_COL : Nat := 9

/-- Width of the data block (7 columns) plus a 2-column gap. -/
def BLOCK_WIDTH : Nat := 9

/-- One cell of the pandas DataFrame read from a CSV file. -/
inductive PCell where
  | na : PCell
  | str : String → PCell
  | int : Int → PCell
  | rat : ℚ → PCell
deriving DecidableEq

/-- `pd.isna` on a DataFrame cell. -/
def PCell.isNa : PCell → Bool
  | .na => true
  | _ => false

/-- A value held in a spreadsheet grid cell. -/
inductive Cell where
  | int : Int → Cell
  | rat : ℚ → Cell
  | str : String → Cell
  | nan : Cell
deriving DecidableEq

/-- Python's `str.strip` on the character list: drop whitespace at both ends. -/
def stripChars (cs : List Char) : List Char :=
  ((cs.dropWhile Char.isWhitespace).reverse.dropWhile Char.isWhitespace).reverse

/-- Python's `str.strip`. -/
def pystrip (s : String) : String :=
  ⟨stripChars s.data⟩

/-- Value of a list of decimal digit characters. -/
def digitsToNat (cs : List Char) : Nat :=
  cs.foldl (fun a c => a * 10 + (c.toNat - 48)) 0

/-- Python's `float(s)` on a string: optional surrounding whitespace, an
optional sign, then digits with at most one decimal point and at least one
digit overall. Returns the exact rational value (built with `mkRat` from the
integer numerator and power-of-ten denominator), or `none` when Python's
`float` would raise `ValueError`. -/
def parseFloat (s : String) : Option ℚ :=
  let cs := stripChars s.data
  let sgn : Int := if cs.head? = some '-' then -1 else 1
  let body := if cs.head? = some '-' ∨ cs.head? = some '+' then cs.drop 1 else cs
  let ip := body.takeWhile (fun c => c ≠ '.')
  let rest := body.dropWhile (fun c => c ≠ '.')
  match rest with
  | [] =>
      if ip ≠ [] ∧ ip.all Char.isDigit then
        some (mkRat (sgn * digitsToNat ip) 1)
      else none
  | _ :: frac =>
      if (ip ≠ [] ∨ frac ≠ []) ∧ ip.all Char.isDigit ∧ frac.all Char.isDigit then
        some (mkRat (sgn * (digitsToNat ip * 10 ^ frac.length + digitsToNat frac))
          (10 ^ frac.length))
      else none

/-- `int(f) if f.is_integer() else f` for a finite float value `q`. -/
def ratToCell (q : ℚ) : Cell :=
  if q.den = 1 then .int q.num else .rat q

/-- Python's `str()` applied to a DataFrame cell. `str(float('nan'))` is
`"nan"`. Rational (float) cells are rendered by `toString`, an approximation
of Python float repr that no claim exercises. -/
def pystr : PCell → String
  | .na => "nan"
  | .str s => s
  | .int n => toString n
  | .rat q => toString q

/-- `convert_cell` (src/update-sheet.py lines 20-28): try `float(val)`;
if the float is integral return `int(f)`, else the float itself; if the
conversion raises, return `str(val).strip()`. A NaN cell converts
successfully to the non-integral float NaN and is returned unchanged. -/
def convert_cell : PCell → Cell
  | .na => .nan
  | .int n => .int n
  | .rat q => ratToCell q
  | .str s =>
      match parseFloat s with
      | some q => ratToCell q
      | none => .str (pystrip s)

/-- The pandas DataFrame read from one CSV file. -/
structure PTable where
  cells : List (List PCell)
deriving DecidableEq

/-- `raw.shape[0]`: number of rows. -/
def PTable.shape0 (t : PTable) : Nat := t.cells.length

/-- `raw.shape[1]`: number of columns (pandas pads ragged rows to the
longest row's width). -/
def PTable.shape1 (t : PTable) : Nat :=
  (t.cells.map List.length).foldr max 0

/-- `raw.iloc[i, j]`; positions beyond a row's stored width are the NaN
padding pandas inserts. -/
def PTable.iloc (t : PTable) (i j : Nat) : PCell :=
  (t.cells.getD i []).getD j .na

/-- `date_label` (line 52): `str(raw.iloc[1, 0]).strip()`. -/
def date_label (t : PTable) : String :=
  pystrip (pystr (t.iloc 1 0))

/-- `header_row` (line 53): `[str(raw.iloc[0, i]).strip() for i in range(1, 8)]`. -/
def header_row (t : PTable) : List String :=
  (List.range' 1 7).map fun i => pystrip (pystr (t.iloc 0 i))

/-- Row indices of the data region (lines 55-58): scan `i` from 1 to
`shape[0]-1`, stopping at the first row whose column 0 is NaN. -/
def dataRowIdxs (t : PTable) : List Nat :=
  (List.range' 1 (t.shape0 - 1)).takeWhile fun i => !(t.iloc i 0).isNa

/-- `data_rows` (lines 55-60): for each kept row,
`[convert_cell(raw.iloc[i, j]) for j in range(1, 8)]`. -/
def data_rows (t : PTable) : List (List Cell) :=
  (dataRowIdxs t).map fun i => (List.range' 1 7).map fun j => convert_cell (t.iloc i j)

/-- The cell grid of a worksheet, as returned by `sheet.get_all_values`
and sent back by `sheet.update("A1", ...)`. -/
abbrev Grid := List (List Cell)

/-- The blank cell used for padding and for positions outside the grid. -/
def blank : Cell := .str ""

/-- The value shown at position `(i, j)` of a grid; positions beyond the
stored rows/cells are empty. -/
def gridCell (g : Grid) (i j : Nat) : Cell :=
  (g.getD i []).getD j blank

/-- Lines 71-72: `while len(existing_data[i]) < START_COL: append("")`. -/
def padRow (r : List Cell) : List Cell :=
  r ++ List.replicate (START_COL - r.length) blank

/-- Lines 68-72: append empty rows until the grid has at least
`max_height + 2` rows, then pad every row to at least `START_COL` cells. -/
def padGrid (g : Grid) (maxHeight : Nat) : Grid :=
  (g ++ List.replicate (maxHeight + 2 - g.length) []).map padRow

/-- Lines 75-79: `row[START_COL:] = [""] * BLOCK_WIDTH + row[START_COL:]`. -/
def shiftRow (r : List Cell) : List Cell :=
  r.take START_COL ++ (List.replicate BLOCK_WIDTH blank ++ r.drop START_COL)

/-- A single Python list assignment `g[i][j] = v`, raising `IndexError`
(`none`) when either index is out of range. -/
def setCell (g : Grid) (i j : Nat) (v : Cell) : Option Grid :=
  match g[i]? with
  | none => none
  | some r => if j < r.length then some (g.set i (r.set j v)) else none

/-- Total counterpart of `setCell`: out-of-range writes are dropped. Used
to state the result grid; `writeBlock_eq_some` shows the faithful
`IndexError`-raising version never takes the dropped branch. -/
def setCellT (g : Grid) (i j : Nat) (v : Cell) : Grid :=
  match g[i]? with
  | none => g
  | some r => g.set i (r.set j v)

/-- Lines 82-83: if row 0 is shorter than `START_COL + 7`, extend it by
`START_COL + 7 - len + 2` blanks; raises `IndexError` on an empty grid. -/
def extendRow0 (g : Grid) : Option Grid :=
  match g with
  | [] => none
  | r0 :: rest =>
      if r0.length < START_COL + 7 then
        some ((r0 ++ List.replicate (START_COL + 7 - r0.length + 2) blank) :: rest)
      else some (r0 :: rest)

/-- Total counterpart of `extendRow0`. -/
def extendRow0T (g : Grid) : Grid :=
  match g with
  | [] => []
  | r0 :: rest =>
      if r0.length < START_COL + 7 then
        (r0 ++ List.replicate (START_COL + 7 - r0.length + 2) blank) :: rest
      else r0 :: rest

/-- Lines 62-91 of `update_sheet`: the in-memory transformation of the
grid fetched from the sheet — pad, shift right by `BLOCK_WIDTH`, then
write the label at `(0, START_COL)`, the header at row 1 and the data
rows at rows 2 and below, columns `START_COL..START_COL+6`. Each indexed
assignment is checked; `none` models an uncaught `IndexError` inside the
`try` block. -/
def writeBlock (g : Grid) (label : String) (header : List String)
    (data : List (List Cell)) : Option Grid := do
  let g1 := (padGrid g data.length).map shiftRow
  let g2 ← extendRow0 g1
  let g3 ← setCell g2 0 START_COL (.str label)
  let g4 ← (List.range 7).foldlM (fun gr j => do
      let v ← header.get? j
      setCell gr 1 (START_COL + j) (.str v)) g3
  (List.range data.length).foldlM (fun gr r => do
      let row ← data.get? r
      (List.range 7).foldlM (fun gr2 c => do
          let v ← row.get? c
          setCell gr2 (r + 2) (START_COL + c) v) gr) g4

/-- Write `f 0, ..., f (n-1)` into row `i0` at columns
`START_COL..START_COL+n-1`. -/
def rowFoldT (i0 : Nat) (f : Nat → Cell) (n : Nat) (g : Grid) : Grid :=
  (List.range n).foldl (fun gr c => setCellT gr i0 (START_COL + c) (f c)) g

/-- Write the first `m` data rows into grid rows `2..m+1`, columns
`START_COL..START_COL+6`. -/
def dataFoldT (data : List (List Cell)) (m : Nat) (g : Grid) : Grid :=
  (List.range m).foldl
    (fun gr r => rowFoldT (r + 2) (fun c => (data.getD r []).getD c blank) 7 gr) g

/-- Total counterpart of `writeBlock`, with out-of-range reads defaulted;
`writeBlock_eq_some` proves it agrees with `writeBlock` for 7-wide
headers and data rows. -/
def writeBlockT (g : Grid) (label : String) (header : List String)
    (data : List (List Cell)) : Grid :=
  let g1 := (padGrid g data.length).map shiftRow
  let g2 := extendRow0T g1
  let g3 := setCellT g2 0 START_COL (.str label)
  let g4 := rowFoldT 1 (fun j => .str (header.getD j "")) 7 g3
  dataFoldT data data.length g4

/-- The merge request issued at lines 97-108: rows `[0, 1)`, columns
`[START_COL, START_COL + 7)`, `MERGE_ALL`. -/
structure MergeReq where
  startRow : Nat
  endRow : Nat
  startCol : Nat
  endCol : Nat
deriving DecidableEq

/-- The merge request for the date label of the newly inserted block. -/
def labelMerge : MergeReq := ⟨0, 1, START_COL, START_COL + 7⟩

/-- Observable state of one worksheet: whether it exists, its cell grid,
and the merge requests applied to it. -/
structure SheetState where
  present : Bool
  grid : Grid
  merges : List MergeReq
deriving DecidableEq

/-- A worksheet that does not exist yet. -/
def absentSheet : SheetState := ⟨false, [], []⟩

/-- Environment of one `update_sheet` call: the outcome of `pd.read_csv`
(a table, or a raised exception), and whether each remote call succeeds.
A `false` flag models a `RemoteOperationFailure` raised by that call. -/
structure Env where
  addWorksheetOk : Bool
  csv : Except String PTable
  getValuesOk : Bool
  updateOk : Bool
  mergeOk : Bool

/-- Result of one `update_sheet` call: the malformed-CSV skip (lines
47-49), a caught exception logged at line 119, or success — each carrying
the worksheet state when `update_sheet` returns. -/
inductive Outcome where
  | skipped (st : SheetState)
  | errored (st : SheetState)
  | success (st : SheetState)
deriving DecidableEq

/-- The worksheet state when `update_sheet` returns. -/
def Outcome.state : Outcome → SheetState
  | .skipped st => st
  | .errored st => st
  | .success st => st

/-- The body of the `try` block of `update_sheet` (lines 36-116):
resolve or create the worksheet, read the CSV, skip on a malformed shape,
else parse the block, transform the grid, write it back and merge the
label cells. `Except.error` carries the sheet state at the uncaught
exception; `Except.ok` is a normal return. -/
def update_sheet_body (env : Env) (st : SheetState) : Except SheetState Outcome :=
  -- Lines 39-43: resolve the worksheet, creating it when absent.
  match (if st.present then Except.ok st
         else if env.addWorksheetOk then Except.ok ⟨true, [], []⟩
         else Except.error st : Except SheetState SheetState) with
  | .error stE => .error stE
  | .ok st1 =>
    -- Line 46: pd.read_csv.
    match env.csv with
    | .error _ => .error st1
    | .ok t =>
      -- Lines 47-49: shape check.
      if t.shape1 < 8 ∨ t.shape0 < 2 then .ok (.skipped st1)
      else
        -- Line 65: sheet.get_all_values().
        if env.getValuesOk then
          -- Lines 62-91: the in-memory transformation.
          match writeBlock st1.grid (date_label t) (header_row t) (data_rows t) with
          | none => .error st1
          | some g2 =>
            -- Line 94: sheet.update("A1", existing_data).
            if env.updateOk then
              -- Lines 97-114: the mergeCells batchUpdate.
              if env.mergeOk then
                .ok (.success ⟨st1.present, g2, st1.merges ++ [labelMerge]⟩)
              else .error ⟨st1.present, g2, st1.merges⟩
            else .error st1
        else .error st1

/-- `update_sheet` (lines 30-121): the body runs inside `try`; any raised
exception is caught and logged by the `except` clause, leaving the remote
state as it was at the raise. -/
def update_sheet (env : Env) (st : SheetState) : Outcome :=
  match update_sheet_body env st with
  | .error stE => .errored stE
  | .ok o => o

/-- The spreadsheet: worksheets by name. -/
abbrev Spreadsheet := List (String × SheetState)

/-- Look up a worksheet's state; a name never written is absent. -/
def getSheet (sp : Spreadsheet) (n : String) : SheetState :=
  match sp.find? (fun p => p.1 = n) with
  | some p => p.2
  | none => absentSheet

/-- Record a worksheet's new state. -/
def setSheet (sp : Spreadsheet) (n : String) (st : SheetState) : Spreadsheet :=
  (n, st) :: sp.filter (fun p => p.1 ≠ n)

/-- The per-file loop of `main` (lines 147-153): every CSV file is handed
to `update_sheet` in order, each against its own worksheet. -/
def processFiles (files : List (String × Env)) (sp : Spreadsheet) :
    Spreadsheet × List Outcome :=
  match files with
  | [] => (sp, [])
  | (n, env) :: rest =>
      let o := update_sheet env (getSheet sp n)
      let res := processFiles rest (setSheet sp n o.state)
      (res.1, o :: res.2)

/-- A parsed CSV block, as in spec section 3. -/
structure Block where
  label : String
  header : List String
  rows : List (List Cell)

/-- Spec section 3 invariant: the header has exactly 7 entries and every
data row has exactly 7 values. -/
def Block.valid (b : Block) : Prop :=
  b.header.length = 7 ∧ ∀ r ∈ b.rows, r.length = 7

/-- Running the writer once per block, oldest first, as repeated runs of
the script do. -/
def writeBlocks (bs : List Block) (g : Grid) : Grid :=
  bs.foldl (fun gr b => writeBlockT gr b.label b.header b.rows) g

/-- Block `b` is laid out at column offset `off` of grid `g`: label at
row 0, header at row 1, data at rows 2 and below, all in columns
`off..off+6`, with the values it was written with. -/
def blockAt (g : Grid) (off : Nat) (b : Block) : Prop :=
  gridCell g 0 off = .str b.label ∧
  (∀ j < 7, gridCell g 1 (off + j) = .str (b.header.getD j "")) ∧
  ∀ r < b.rows.length, ∀ c < 7,
    gridCell g (r + 2) (off + c) = (b.rows.getD r []).getD c blank

/-! ### Shape lemmas for single-cell writes -/

theorem getD_set_list (r : List Cell) (j : Nat) (v : Cell) (b : Nat) :
    (r.set j v).getD b blank = if b = j ∧ j < r.length then v else r.getD b blank := by
  rw [List.getD_eq_getElem?_getD, List.getD_eq_getElem?_getD, List.getElem?_set]
  by_cases hjb : j = b
  · subst hjb
    by_cases hj : j < r.length
    · simp [hj]
    · rw [if_pos rfl, if_neg hj, if_neg (by rintro ⟨-, hc⟩; exact hj hc),
        List.getElem?_eq_none (by omega)]
  · rw [if_neg hjb, if_neg (by rintro ⟨hc, -⟩; exact hjb hc.symm)]

theorem row_setCellT (g : Grid) (i j : Nat) (v : Cell) (a : Nat) :
    (setCellT g i j v).getD a [] =
      if a = i ∧ i < g.length then (g.getD i []).set j v else g.getD a [] := by
  cases h : g[i]? with
  | none =>
    have hle : g.length ≤ i := List.getElem?_eq_none_iff.mp h
    simp only [setCellT, h]
    rw [if_neg (by rintro ⟨-, hc⟩; omega)]
  | some r =>
    obtain ⟨hlt, hget⟩ := List.getElem?_eq_some_iff.mp h
    have hrowD : g.getD i [] = r := by
      rw [List.getD_eq_getElem?_getD, h]; rfl
    simp only [setCellT, h]
    by_cases hai : a = i
    · subst hai
      rw [if_pos ⟨rfl, hlt⟩, List.getD_eq_getElem?_getD,
        List.getElem?_set_self (by simpa using hlt), Option.getD_some, hrowD]
    · rw [if_neg (by rintro ⟨hc, -⟩; exact hai hc), List.getD_eq_getElem?_getD,
        List.getElem?_set_ne (fun hia => hai hia.symm), ← List.getD_eq_getElem?_getD]

theorem length_setCellT (g : Grid) (i j : Nat) (v : Cell) :
    (setCellT g i j v).length = g.length := by
  cases h : g[i]? with
  | none => simp only [setCellT, h]
  | some r => simp only [setCellT, h]; simp

theorem rowLen_setCellT (g : Grid) (i j : Nat) (v : Cell) (a : Nat) :
    ((setCellT g i j v).getD a []).length = (g.getD a []).length := by
  rw [row_setCellT]
  by_cases hc : a = i ∧ i < g.length
  · rw [if_pos hc]
    obtain ⟨hai, -⟩ := hc
    subst hai
    simp
  · rw [if_neg hc]

theorem gridCell_setCellT (g : Grid) (i j : Nat) (v : Cell) (a b : Nat) :
    gridCell (setCellT g i j v) a b =
      if a = i ∧ b = j ∧ i < g.length ∧ j < (g.getD i []).length then v
      else gridCell g a b := by
  unfold gridCell
  rw [row_setCellT]
  by_cases hrow : a = i ∧ i < g.length
  · obtain ⟨hai, hilen⟩ := hrow
    subst hai
    rw [if_pos ⟨rfl, hilen⟩, getD_set_list]
    by_cases hbj : b = j ∧ j < (g.getD a []).length
    · rw [if_pos hbj, if_pos ⟨rfl, hbj.1, hilen, hbj.2⟩]
    · rw [if_neg hbj, if_neg (by rintro ⟨-, h1, -, h2⟩; exact hbj ⟨h1, h2⟩)]
  · rw [if_neg hrow, if_neg (by rintro ⟨h1, -, h2, -⟩; exact hrow ⟨h1, h2⟩)]

/-! ### The pad-and-shift phase -/

theorem getD_append_replicate_nil (g : Grid) (k i : Nat) :
    (g ++ List.replicate k ([] : List Cell)).getD i [] = g.getD i [] := by
  rw [List.getD_eq_getElem?_getD, List.getD_eq_getElem?_getD, List.getElem?_append]
  by_cases hi : i < g.length
  · rw [if_pos hi]
  · rw [if_neg hi, List.getElem?_replicate, List.getElem?_eq_none (by omega)]
    by_cases hk : i - g.length < k <;> simp [hk]

theorem length_padShift (g : Grid) (h : Nat) :
    ((padGrid g h).map shiftRow).length = max g.length (h + 2) := by
  simp [padGrid, padRow]
  omega

theorem padRow_getD (r : List Cell) (m : Nat) :
    (padRow r).getD m blank = r.getD m blank := by
  rw [padRow, List.getD_eq_getElem?_getD, List.getD_eq_getElem?_getD, List.getElem?_append]
  by_cases hm : m < r.length
  · rw [if_pos hm]
  · rw [if_neg hm, List.getElem?_replicate, List.getElem?_eq_none (show r.length ≤ m by omega)]
    by_cases hk : m - r.length < START_COL - r.length <;> simp [hk, blank]

theorem shiftRow_padRow_getD (r : List Cell) (j : Nat) :
    (shiftRow (padRow r)).getD j blank =
      if j < START_COL then r.getD j blank
      else if j < START_COL + BLOCK_WIDTH then blank
      else r.getD (j - BLOCK_WIDTH) blank := by
  have hpadlen : (padRow r).length = max r.length START_COL := by
    simp [padRow]; omega
  have htklen : ((padRow r).take START_COL).length = START_COL := by
    rw [List.length_take, hpadlen]; omega
  rw [shiftRow, List.getD_eq_getElem?_getD, List.getElem?_append, htklen]
  by_cases hj : j < START_COL
  · rw [if_pos hj, List.getElem?_take, if_pos hj, ← List.getD_eq_getElem?_getD,
      padRow_getD, if_pos hj]
  · rw [if_neg hj, List.getElem?_append, List.length_replicate, List.getElem?_replicate]
    by_cases hj2 : j < START_COL + BLOCK_WIDTH
    · rw [if_pos (by omega), if_pos (by omega), if_neg hj, if_pos hj2]
      rfl
    · rw [if_neg (by omega), if_neg (by omega), List.getElem?_drop]
      have harith : START_COL + (j - START_COL - BLOCK_WIDTH) = j - BLOCK_WIDTH := by omega
      rw [harith, ← List.getD_eq_getElem?_getD, padRow_getD, if_neg hj2]

theorem row_padShift (g : Grid) (h : Nat) (i : Nat) :
    ((padGrid g h).map shiftRow).getD i [] =
      if i < max g.length (h + 2) then shiftRow (padRow (g.getD i [])) else [] := by
  have hXlen : (g ++ List.replicate (h + 2 - g.length) ([] : List Cell)).length
      = max g.length (h + 2) := by
    simp; omega
  rw [padGrid, List.getD_eq_getElem?_getD, List.getElem?_map, List.getElem?_map]
  by_cases hi : i < max g.length (h + 2)
  · have hi2 : i < (g ++ List.replicate (h + 2 - g.length) ([] : List Cell)).length := by
      omega
    rw [List.getElem?_eq_getElem hi2]
    have hXi : (g ++ List.replicate (h + 2 - g.length) ([] : List Cell))[i]
        = g.getD i [] := by
      rw [show (g ++ List.replicate (h + 2 - g.length) ([] : List Cell))[i]
          = (g ++ List.replicate (h + 2 - g.length) ([] : List Cell)).getD i [] from by
            rw [List.getD_eq_getElem?_getD, List.getElem?_eq_getElem hi2]; rfl,
        getD_append_replicate_nil]
    rw [hXi, if_pos hi]
    simp
  · rw [List.getElem?_eq_none (by omega), if_neg hi]
    rfl

theorem gridCell_padShift (g : Grid) (h : Nat) (i j : Nat) :
    gridCell ((padGrid g h).map shiftRow) i j =
      if j < START_COL then gridCell g i j
      else if j < START_COL + BLOCK_WIDTH then blank
      else gridCell g i (j - BLOCK_WIDTH) := by
  unfold gridCell
  rw [row_padShift]
  by_cases hi : i < max g.length (h + 2)
  · rw [if_pos hi, shiftRow_padRow_getD]
  · rw [if_neg hi]
    have hg1 : g.getD i [] = [] := by
      rw [List.getD_eq_getElem?_getD, List.getElem?_eq_none (by omega)]; rfl
    rw [hg1]
    simp only [List.getD_nil]
    split_ifs <;> rfl

theorem rowLen_padShift (g : Grid) (h : Nat) (i : Nat)
    (hi : i < ((padGrid g h).map shiftRow).length) :
    START_COL + BLOCK_WIDTH ≤ (((padGrid g h).map shiftRow).getD i []).length := by
  rw [row_padShift]
  rw [length_padShift] at hi
  rw [if_pos hi]
  simp [shiftRow, padRow]
  omega

/-! ### Row-segment and data-region writes -/

theorem rowFoldT_succ (i0 : Nat) (f : Nat → Cell) (n : Nat) (g : Grid) :
    rowFoldT i0 f (n + 1) g = setCellT (rowFoldT i0 f n g) i0 (START_COL + n) (f n) := by
  simp [rowFoldT, List.range_succ]

theorem length_rowFoldT (i0 : Nat) (f : Nat → Cell) (n : Nat) (g : Grid) :
    (rowFoldT i0 f n g).length = g.length := by
  induction n with
  | zero => rfl
  | succ n ih => rw [rowFoldT_succ, length_setCellT, ih]

theorem rowLen_rowFoldT (i0 : Nat) (f : Nat → Cell) (n : Nat) (g : Grid) (a : Nat) :
    ((rowFoldT i0 f n g).getD a []).length = (g.getD a []).length := by
  induction n with
  | zero => rfl
  | succ n ih => rw [rowFoldT_succ, rowLen_setCellT, ih]

theorem gridCell_rowFoldT (i0 : Nat) (f : Nat → Cell) (n : Nat) (g : Grid)
    (hi0 : i0 < g.length) (hlen : START_COL + n ≤ (g.getD i0 []).length) (a b : Nat) :
    gridCell (rowFoldT i0 f n g) a b =
      if a = i0 ∧ START_COL ≤ b ∧ b < START_COL + n then f (b - START_COL)
      else gridCell g a b := by
  induction n with
  | zero =>
    rw [if_neg (by rintro ⟨-, h1, h2⟩; omega)]
    rfl
  | succ n ih =>
    rw [rowFoldT_succ, gridCell_setCellT, length_rowFoldT, rowLen_rowFoldT,
      ih (by omega)]
    by_cases hab : a = i0 ∧ b = START_COL + n
    · rw [if_pos ⟨hab.1, hab.2, hi0, by omega⟩,
        if_pos ⟨hab.1, by omega, by omega⟩, hab.2]
      simp
    · rw [if_neg (by rintro ⟨h1, h2, -⟩; exact hab ⟨h1, h2⟩)]
      by_cases hin : a = i0 ∧ START_COL ≤ b ∧ b < START_COL + n
      · rw [if_pos hin, if_pos ⟨hin.1, hin.2.1, by omega⟩]
      · rw [if_neg hin,
          if_neg (by rintro ⟨h1, h2, h3⟩; exact (by
            by_cases hb : b = START_COL + n
            · exact hab ⟨h1, hb⟩
            · exact hin ⟨h1, h2, by omega⟩))]

theorem dataFoldT_succ (data : List (List Cell)) (m : Nat) (g : Grid) :
    dataFoldT data (m + 1) g =
      rowFoldT (m + 2) (fun c => (data.getD m []).getD c blank) 7 (dataFoldT data m g) := by
  simp [dataFoldT, List.range_succ]

theorem length_dataFoldT (data : List (List Cell)) (m : Nat) (g : Grid) :
    (dataFoldT data m g).length = g.length := by
  induction m with
  | zero => rfl
  | succ m ih => rw [dataFoldT_succ, length_rowFoldT, ih]

theorem rowLen_dataFoldT (data : List (List Cell)) (m : Nat) (g : Grid) (a : Nat) :
    ((dataFoldT data m g).getD a []).length = (g.getD a []).length := by
  induction m with
  | zero => rfl
  | succ m ih => rw [dataFoldT_succ, rowLen_rowFoldT, ih]

theorem gridCell_dataFoldT (data : List (List Cell)) (m : Nat) (g : Grid)
    (hg : m + 2 ≤ g.length)
    (hrows : ∀ r, r < m → START_COL + 7 ≤ ((g.getD (r + 2) []).length)) (a b : Nat) :
    gridCell (dataFoldT data m g) a b =
      if 2 ≤ a ∧ a < m + 2 ∧ START_COL ≤ b ∧ b < START_COL + 7 then
        (data.getD (a - 2) []).getD (b - START_COL) blank
      else gridCell g a b := by
  induction m with
  | zero =>
    rw [if_neg (by rintro ⟨h1, h2, -⟩; omega)]
    rfl
  | succ m ih =>
    rw [dataFoldT_succ,
      gridCell_rowFoldT _ _ _ _ (by rw [length_dataFoldT]; omega)
        (by rw [rowLen_dataFoldT]; exact hrows m (by omega)),
      ih (by omega) (fun r hr => hrows r (by omega))]
    by_cases hab : a = m + 2 ∧ START_COL ≤ b ∧ b < START_COL + 7
    · rw [if_pos hab, if_pos ⟨by omega, by omega, hab.2.1, hab.2.2⟩, hab.1]
      simp
    · rw [if_neg hab]
      by_cases hin : 2 ≤ a ∧ a < m + 2 ∧ START_COL ≤ b ∧ b < START_COL + 7
      · rw [if_pos hin, if_pos ⟨hin.1, by omega, hin.2.2⟩]
      · rw [if_neg hin,
          if_neg (by rintro ⟨h1, h2, h3, h4⟩; exact (by
            by_cases ha : a = m + 2
            · exact hab ⟨ha, h3, h4⟩
            · exact hin ⟨h1, by omega, h3, h4⟩))]

/-! ### Cell-level description of one full write -/

theorem extendRow0T_eq (g : Grid) (hne : g ≠ [])
    (h0 : START_COL + 7 ≤ (g.getD 0 []).length) : extendRow0T g = g := by
  cases g with
  | nil => exact absurd rfl hne
  | cons r0 rest =>
    have : ¬r0.length < START_COL + 7 := by
      simp only [List.getD_cons_zero] at h0
      omega
    simp [extendRow0T, this]

/-- Where every cell of the grid ends up after one `writeBlockT`: the new
block's data, header and label in columns `START_COL..START_COL+6` of rows
`2..len+1`, `1` and `0` respectively; columns left of `START_COL`
untouched; the rest of the gap blank; and every other cell shifted right
by `BLOCK_WIDTH`. -/
theorem gridCell_writeBlockT (g : Grid) (label : String) (header : List String)
    (data : List (List Cell)) (a b : Nat) :
    gridCell (writeBlockT g label header data) a b =
      if 2 ≤ a ∧ a < data.length + 2 ∧ START_COL ≤ b ∧ b < START_COL + 7 then
        (data.getD (a - 2) []).getD (b - START_COL) blank
      else if a = 1 ∧ START_COL ≤ b ∧ b < START_COL + 7 then
        .str (header.getD (b - START_COL) "")
      else if a = 0 ∧ b = START_COL then .str label
      else if b < START_COL then gridCell g a b
      else if b < START_COL + BLOCK_WIDTH then blank
      else gridCell g a (b - BLOCK_WIDTH) := by
  have hSC : START_COL = 9 := rfl
  have hBW : BLOCK_WIDTH = 9 := rfl
  have hG1len : ((padGrid g data.length).map shiftRow).length
      = max g.length (data.length + 2) := length_padShift g data.length
  have hG1row : ∀ i, i < ((padGrid g data.length).map shiftRow).length →
      START_COL + BLOCK_WIDTH ≤ (((padGrid g data.length).map shiftRow).getD i []).length :=
    rowLen_padShift g data.length
  have hExt : extendRow0T ((padGrid g data.length).map shiftRow)
      = (padGrid g data.length).map shiftRow := by
    refine extendRow0T_eq _ ?_ ?_
    · intro hnil
      rw [hnil] at hG1len
      simp at hG1len
      omega
    · have := hG1row 0 (by omega)
      omega
  rw [writeBlockT]
  simp only [hExt]
  rw [gridCell_dataFoldT _ _ _
      (by rw [length_rowFoldT, length_setCellT]; omega)
      (fun r hr => by
        rw [rowLen_rowFoldT, rowLen_setCellT]
        have := hG1row (r + 2) (by omega)
        omega),
    gridCell_rowFoldT _ _ _ _
      (by rw [length_setCellT]; omega)
      (by
        rw [rowLen_setCellT]
        have := hG1row 1 (by omega)
        omega),
    gridCell_setCellT, gridCell_padShift]
  have h0len : 0 < ((padGrid g data.length).map shiftRow).length := by omega
  have h0row : START_COL < (((padGrid g data.length).map shiftRow).getD 0 []).length := by
    have := hG1row 0 h0len
    omega
  by_cases hd : 2 ≤ a ∧ a < data.length + 2 ∧ START_COL ≤ b ∧ b < START_COL + 7
  · rw [if_pos hd, if_pos hd]
  · rw [if_neg hd, if_neg hd]
    by_cases hh : a = 1 ∧ START_COL ≤ b ∧ b < START_COL + 7
    · rw [if_pos hh, if_pos hh]
    · rw [if_neg hh, if_neg hh]
      by_cases hl : a = 0 ∧ b = START_COL
      · rw [if_pos ⟨hl.1, hl.2, h0len, by omega⟩, if_pos hl]
      · rw [if_neg (by rintro ⟨h1, h2, -⟩; exact hl ⟨h1, h2⟩), if_neg hl]

/-! ### The checked write never raises and agrees with the total write -/

theorem setCell_eq (g : Grid) (i j : Nat) (v : Cell) (hi : i < g.length)
    (hj : j < (g.getD i []).length) : setCell g i j v = some (setCellT g i j v) := by
  have h : g[i]? = some g[i] := List.getElem?_eq_getElem hi
  have hrow : g.getD i [] = g[i] := by
    rw [List.getD_eq_getElem?_getD, h]; rfl
  rw [hrow] at hj
  simp only [setCell, setCellT, h]
  rw [if_pos hj]

theorem extendRow0_eq (g : Grid) (hne : g ≠ []) :
    extendRow0 g = some (extendRow0T g) := by
  cases g with
  | nil => exact absurd rfl hne
  | cons r0 rest =>
    by_cases h : r0.length < START_COL + 7 <;> simp [extendRow0, extendRow0T, h]

theorem headerFoldM_eq (header : List String) (n : Nat) (hn : n ≤ header.length)
    (g : Grid) (h1 : 1 < g.length) (h2 : START_COL + n ≤ (g.getD 1 []).length) :
    (List.range n).foldlM
        (fun gr j => (header.get? j).bind fun v => setCell gr 1 (START_COL + j) (.str v)) g
      = some (rowFoldT 1 (fun j => .str (header.getD j "")) n g) := by
  induction n with
  | zero => rfl
  | succ n ih =>
    rw [List.range_succ, List.foldlM_append, ih (by omega) (by omega)]
    have hget : header.get? n = some (header.getD n "") := by
      rw [List.get?_eq_getElem?, List.getD_eq_getElem?_getD,
        List.getElem?_eq_getElem (by omega)]
      rfl
    simp only [Option.bind_eq_bind, Option.some_bind, List.foldlM_cons, List.foldlM_nil,
      hget]
    rw [setCell_eq _ _ _ _ (by rw [length_rowFoldT]; omega)
        (by rw [rowLen_rowFoldT]; omega),
      rowFoldT_succ]
    rfl

theorem dataRowFoldM_eq (row : List Cell) (r : Nat) (n : Nat) (hn : n ≤ row.length)
    (g : Grid) (h1 : r + 2 < g.length) (h2 : START_COL + n ≤ (g.getD (r + 2) []).length) :
    (List.range n).foldlM
        (fun gr2 c => (row.get? c).bind fun v => setCell gr2 (r + 2) (START_COL + c) v) g
      = some (rowFoldT (r + 2) (fun c => row.getD c blank) n g) := by
  induction n with
  | zero => rfl
  | succ n ih =>
    rw [List.range_succ, List.foldlM_append, ih (by omega) (by omega)]
    have hget : row.get? n = some (row.getD n blank) := by
      rw [List.get?_eq_getElem?, List.getD_eq_getElem?_getD,
        List.getElem?_eq_getElem (by omega)]
      rfl
    simp only [Option.bind_eq_bind, Option.some_bind, List.foldlM_cons, List.foldlM_nil,
      hget]
    rw [setCell_eq _ _ _ _ (by rw [length_rowFoldT]; omega)
        (by rw [rowLen_rowFoldT]; omega),
      rowFoldT_succ]
    rfl

theorem dataFoldM_eq (data : List (List Cell)) (m : Nat) (hm : m ≤ data.length)
    (hrows : ∀ row ∈ data, row.length = 7)
    (g : Grid) (hg : data.length + 2 ≤ g.length)
    (hrow : ∀ r, r < m → START_COL + 7 ≤ (g.getD (r + 2) []).length) :
    (List.range m).foldlM (fun gr r => (data.get? r).bind fun row =>
        (List.range 7).foldlM
          (fun gr2 c => (row.get? c).bind fun v => setCell gr2 (r + 2) (START_COL + c) v)
          gr) g
      = some (dataFoldT data m g) := by
  induction m with
  | zero => rfl
  | succ m ih =>
    rw [show List.range (m + 1) = List.range m ++ [m] from by rw [List.range_succ],
      List.foldlM_append, ih (by omega) (fun r hr => hrow r (by omega))]
    have hmem : data.getD m [] ∈ data := by
      rw [List.getD_eq_getElem?_getD, List.getElem?_eq_getElem (by omega)]
      exact List.getElem_mem _
    have hget : data.get? m = some (data.getD m []) := by
      rw [List.get?_eq_getElem?, List.getD_eq_getElem?_getD,
        List.getElem?_eq_getElem (by omega)]
      rfl
    simp only [Option.bind_eq_bind, Option.some_bind, List.foldlM_cons, List.foldlM_nil,
      hget]
    rw [dataRowFoldM_eq (data.getD m []) m 7 (le_of_eq (hrows _ hmem).symm)
        (dataFoldT data m g)
        (by rw [length_dataFoldT]; omega)
        (by rw [rowLen_dataFoldT]; exact hrow m (by omega)),
      dataFoldT_succ]
    rfl

/-- The faithful, `IndexError`-checking transformation always succeeds on a
block whose header and data rows have 7 entries, and its result is
`writeBlockT`. -/
theorem writeBlock_eq_some (g : Grid) (label : String) (header : List String)
    (data : List (List Cell)) (hh : header.length = 7)
    (hd : ∀ row ∈ data, row.length = 7) :
    writeBlock g label header data = some (writeBlockT g label header data) := by
  have hSC : START_COL = 9 := rfl
  have hBW : BLOCK_WIDTH = 9 := rfl
  have hG1len : ((padGrid g data.length).map shiftRow).length
      = max g.length (data.length + 2) := length_padShift g data.length
  have hG1row : ∀ i, i < ((padGrid g data.length).map shiftRow).length →
      START_COL + BLOCK_WIDTH ≤ (((padGrid g data.length).map shiftRow).getD i []).length :=
    rowLen_padShift g data.length
  have hne : (padGrid g data.length).map shiftRow ≠ [] := by
    intro hnil
    rw [hnil] at hG1len
    simp at hG1len
    omega
  have hExt : extendRow0T ((padGrid g data.length).map shiftRow)
      = (padGrid g data.length).map shiftRow := by
    refine extendRow0T_eq _ hne ?_
    have := hG1row 0 (by omega)
    omega
  rw [writeBlock, writeBlockT]
  simp only [Option.bind_eq_bind]
  rw [extendRow0_eq _ hne, hExt]
  simp only [Option.some_bind]
  rw [setCell_eq _ _ _ _ (by omega) (by have := hG1row 0 (by omega); omega)]
  simp only [Option.some_bind]
  rw [headerFoldM_eq header 7 (by omega)
      (setCellT ((padGrid g data.length).map shiftRow) 0 START_COL (.str label))
      (by rw [length_setCellT]; omega)
      (by rw [rowLen_setCellT]; have := hG1row 1 (by omega); omega)]
  simp only [Option.some_bind]
  rw [dataFoldM_eq data data.length (le_refl _) hd
      (rowFoldT 1 (fun j => .str (header.getD j "")) 7
        (setCellT ((padGrid g data.length).map shiftRow) 0 START_COL (.str label)))
      (by rw [length_rowFoldT, length_setCellT]; omega)
      (fun r hr => by
        rw [rowLen_rowFoldT, rowLen_setCellT]
        have := hG1row (r + 2) (by omega)
        omega)]

/-! ### Shape of the parsed block -/

theorem length_header_row (t : PTable) : (header_row t).length = 7 := by
  simp [header_row]

theorem data_rows_length_eq (t : PTable) (r : List Cell) (hr : r ∈ data_rows t) :
    r.length = 7 := by
  rw [data_rows] at hr
  obtain ⟨i, -, rfl⟩ := List.mem_map.mp hr
  simp

/-! ### The truncation rule -/

theorem takeWhile_range_lt_iff (p : Nat → Bool) (a n i : Nat) :
    i < ((List.range' a n).takeWhile p).length ↔
      i < n ∧ ∀ k, k ≤ i → p (a + k) = true := by
  induction n generalizing a i with
  | zero => simp
  | succ n ih =>
    rw [List.range'_succ, List.takeWhile_cons]
    by_cases hpa : p a = true
    · rw [if_pos hpa]
      cases i with
      | zero =>
        simp only [List.length_cons]
        constructor
        · intro _
          exact ⟨by omega, fun k hk => by
            have hk0 : k = 0 := by omega
            rw [hk0, Nat.add_zero]
            exact hpa⟩
        · intro _
          omega
      | succ i =>
        simp only [List.length_cons]
        rw [Nat.succ_lt_succ_iff, ih (a + 1) i]
        constructor
        · rintro ⟨hn, hall⟩
          refine ⟨by omega, fun k hk => ?_⟩
          cases k with
          | zero => rw [Nat.add_zero]; exact hpa
          | succ k =>
            have := hall k (by omega)
            rw [show a + (k + 1) = a + 1 + k by omega]
            exact this
        · rintro ⟨hn, hall⟩
          refine ⟨by omega, fun k hk => ?_⟩
          have := hall (k + 1) (by omega)
          rw [show a + 1 + k = a + (k + 1) by omega]
          exact this
    · rw [if_neg hpa]
      simp only [List.length_nil]
      constructor
      · omega
      · rintro ⟨-, hall⟩
        exact absurd (by simpa using hall 0 (by omega)) hpa

theorem takeWhile_range_getD (p : Nat → Bool) (a n i : Nat)
    (h : i < ((List.range' a n).takeWhile p).length) :
    ((List.range' a n).takeWhile p).getD i 0 = a + i := by
  induction n generalizing a i with
  | zero => simp at h
  | succ n ih =>
    rw [List.range'_succ, List.takeWhile_cons] at h ⊢
    by_cases hpa : p a = true
    · rw [if_pos hpa] at h ⊢
      cases i with
      | zero => simp
      | succ i =>
        simp only [List.length_cons, Nat.succ_lt_succ_iff] at h
        simp only [List.getD_cons_succ]
        rw [ih (a + 1) i h]
        omega
    · rw [if_neg hpa] at h
      simp at h

/-! ### Layout of blocks after repeated runs -/

theorem blockAt_writeBlockT_self (g : Grid) (b : Block) :
    blockAt (writeBlockT g b.label b.header b.rows) START_COL b := by
  have hSC : START_COL = 9 := rfl
  have hBW : BLOCK_WIDTH = 9 := rfl
  refine ⟨?_, ?_, ?_⟩
  · rw [gridCell_writeBlockT, if_neg (by omega), if_neg (by omega), if_pos ⟨rfl, rfl⟩]
  · intro j hj
    rw [gridCell_writeBlockT, if_neg (by omega), if_pos ⟨rfl, by omega, by omega⟩,
      show START_COL + j - START_COL = j by omega]
  · intro r hr c hc
    rw [gridCell_writeBlockT, if_pos ⟨by omega, by omega, by omega, by omega⟩,
      show r + 2 - 2 = r by omega, show START_COL + c - START_COL = c by omega]

theorem blockAt_writeBlockT_shift (g : Grid) (label : String) (header : List String)
    (data : List (List Cell)) (off : Nat) (b : Block) (hoff : START_COL ≤ off)
    (hb : blockAt g off b) :
    blockAt (writeBlockT g label header data) (off + BLOCK_WIDTH) b := by
  have hSC : START_COL = 9 := rfl
  have hBW : BLOCK_WIDTH = 9 := rfl
  obtain ⟨hl, hh, hd⟩ := hb
  refine ⟨?_, ?_, ?_⟩
  · rw [gridCell_writeBlockT, if_neg (by omega), if_neg (by omega),
      if_neg (by rintro ⟨-, hc⟩; omega), if_neg (by omega), if_neg (by omega),
      show off + BLOCK_WIDTH - BLOCK_WIDTH = off by omega]
    exact hl
  · intro j hj
    rw [show off + BLOCK_WIDTH + j = (off + j) + BLOCK_WIDTH by omega,
      gridCell_writeBlockT, if_neg (by omega), if_neg (by omega),
      if_neg (by rintro ⟨-, hc⟩; omega), if_neg (by omega), if_neg (by omega),
      show off + j + BLOCK_WIDTH - BLOCK_WIDTH = off + j by omega]
    exact hh j hj
  · intro r hr c hc
    rw [show off + BLOCK_WIDTH + c = (off + c) + BLOCK_WIDTH by omega,
      gridCell_writeBlockT, if_neg (by omega), if_neg (by omega),
      if_neg (by rintro ⟨-, hc2⟩; omega), if_neg (by omega), if_neg (by omega),
      show off + c + BLOCK_WIDTH - BLOCK_WIDTH = off + c by omega]
    exact hd r hr c hc

theorem blockAt_writeBlocks_shift (bs : List Block) (g : Grid) (off : Nat) (b : Block)
    (hoff : START_COL ≤ off) (hb : blockAt g off b) :
    blockAt (writeBlocks bs g) (off + bs.length * BLOCK_WIDTH) b := by
  induction bs generalizing g off with
  | nil => simpa [writeBlocks] using hb
  | cons bNew rest ih =>
    have step := blockAt_writeBlockT_shift g bNew.label bNew.header bNew.rows off b hoff hb
    have := ih (writeBlockT g bNew.label bNew.header bNew.rows) (off + BLOCK_WIDTH)
      (by have : START_COL = 9 := rfl; have : BLOCK_WIDTH = 9 := rfl; omega) step
    rw [show off + BLOCK_WIDTH + rest.length * BLOCK_WIDTH
        = off + (rest.length + 1) * BLOCK_WIDTH by ring_nf] at this
    simpa [writeBlocks, List.length_cons] using this

theorem writeBlocks_layout (bs : List Block) (g : Grid) (j : Nat) (hj : j < bs.length) :
    blockAt (writeBlocks bs g) (START_COL + (bs.length - 1 - j) * BLOCK_WIDTH)
      (bs.getD j ⟨"", [], []⟩) := by
  induction bs generalizing g j with
  | nil => simp at hj
  | cons b rest ih =>
    have hw : writeBlocks (b :: rest) g
        = writeBlocks rest (writeBlockT g b.label b.header b.rows) := rfl
    cases j with
    | zero =>
      have base := blockAt_writeBlockT_self g b
      have hsh := blockAt_writeBlocks_shift rest
        (writeBlockT g b.label b.header b.rows) START_COL b (le_refl _) base
      have hoffeq : START_COL + rest.length * BLOCK_WIDTH
          = START_COL + ((b :: rest).length - 1 - 0) * BLOCK_WIDTH := by
        simp
      have hget : (b :: rest).getD 0 ⟨"", [], []⟩ = b := rfl
      rw [hw, hget, ← hoffeq]
      exact hsh
    | succ j =>
      have hrec := ih (writeBlockT g b.label b.header b.rows) j (by simpa using hj)
      have hoffeq : START_COL + (rest.length - 1 - j) * BLOCK_WIDTH
          = START_COL + ((b :: rest).length - 1 - (j + 1)) * BLOCK_WIDTH := by
        simp only [List.length_cons]
        congr 2
        omega
      have hget : (b :: rest).getD (j + 1) ⟨"", [], []⟩ = rest.getD j ⟨"", [], []⟩ := rfl
      rw [hw, hget, ← hoffeq]
      exact hrec

/-! ## Claims -/

/-- C6: the cell conversion maps `"42"` to integer `42`, `"42.5"` to the
float `42.5` (the rational `85/2`), `"42.0"` to integer `42`, `"abc"` to
the string `"abc"`; and every string input that fails numeric parsing comes
back as its string form with surrounding whitespace stripped. -/
theorem c6_numeric_conversion (s : String) (hs : parseFloat s = none) :
    convert_cell (.str "42") = .int 42
    ∧ convert_cell (.str "42.5") = .rat (mkRat 85 2)
    ∧ convert_cell (.str "42.0") = .int 42
    ∧ convert_cell (.str "abc") = .str "abc"
    ∧ convert_cell (.str s) = .str (pystrip s) := by
  refine ⟨by decide, by decide, by decide, by decide, ?_⟩
  simp [convert_cell, hs]

/-- Witness for C6 at the concrete failing input `" abc "`. -/
theorem c6_numeric_conversion_witness :
    parseFloat " abc " = none ∧ convert_cell (.str " abc ") = .str (pystrip " abc ") :=
  ⟨by decide, (c6_numeric_conversion " abc " (by decide)).2.2.2.2⟩

/-- C7: for every CSV table passing the shape check (at least 2 rows and
8 columns), the parsed block's header has exactly 7 entries, and each of
its data rows has exactly 7 entries. -/
theorem c7_block_shape (t : PTable) (h8 : 8 ≤ t.shape1) (h2 : 2 ≤ t.shape0) :
    (header_row t).length = 7 ∧ ∀ r ∈ data_rows t, r.length = 7 :=
  ⟨length_header_row t, fun r hr => data_rows_length_eq t r hr⟩

/-- Witness for C7 at a concrete 2-by-8 table. -/
theorem c7_block_shape_witness :
    (header_row ⟨[[.na, .str "A", .str "B", .str "C", .str "D", .str "E", .str "F", .str "G"],
        [.str "d", .str "1", .str "2", .str "3", .str "4", .str "5", .str "6", .str "7"]]⟩).length = 7
    ∧ ∀ r ∈ data_rows ⟨[[.na, .str "A", .str "B", .str "C", .str "D", .str "E", .str "F", .str "G"],
        [.str "d", .str "1", .str "2", .str "3", .str "4", .str "5", .str "6", .str "7"]]⟩,
        r.length = 7 :=
  c7_block_shape _ (by decide) (by decide)

/-- C5: the parsed data region is exactly the maximal prefix of source rows
from row index 1 in which every row's column 0 is non-blank: row `i` of the
source contributes entry `i - 1` of `rows` exactly when no row from 1 to
`i` has a blank column 0, and a contributed entry is the converted cells
1..7 of that source row. -/
theorem c5_truncation (t : PTable) (h8 : 8 ≤ t.shape1) (h2 : 2 ≤ t.shape0)
    (i : Nat) (h1 : 1 ≤ i) (hi : i < t.shape0) :
    ((i - 1 < (data_rows t).length) ↔ ∀ j, 1 ≤ j → j ≤ i → (t.iloc j 0).isNa = false)
    ∧ (i - 1 < (data_rows t).length →
        (data_rows t).getD (i - 1) []
          = (List.range' 1 7).map fun j => convert_cell (t.iloc i j)) := by
  have hlen : (data_rows t).length = (dataRowIdxs t).length := by
    simp [data_rows]
  constructor
  · rw [hlen, dataRowIdxs, takeWhile_range_lt_iff]
    constructor
    · rintro ⟨hlt, hall⟩ j hj1 hji
      have hk := hall (j - 1) (by omega)
      rw [show 1 + (j - 1) = j by omega] at hk
      simpa using hk
    · intro hall
      refine ⟨by omega, fun k hk => ?_⟩
      have := hall (1 + k) (by omega) (by omega)
      simpa using this
  · intro hlt
    have hlt2 : i - 1 < (dataRowIdxs t).length := by rw [← hlen]; exact hlt
    have hidx : (dataRowIdxs t).getD (i - 1) 0 = i := by
      rw [dataRowIdxs, takeWhile_range_getD _ _ _ _ (by rw [← dataRowIdxs]; exact hlt2)]
      omega
    rw [data_rows, List.getD_eq_getElem?_getD, List.getElem?_map,
      List.getElem?_eq_getElem hlt2]
    simp only [Option.map_some', Option.map_some, Option.getD_some]
    have h2x : (dataRowIdxs t).getD (i - 1) 0 = (dataRowIdxs t)[i - 1] := by
      rw [List.getD_eq_getElem?_getD, List.getElem?_eq_getElem hlt2]
      rfl
    rw [h2x.symm.trans hidx]

/-- Witness for C5: a table whose data region stops at the blank first
cell of source row 4, evaluated at `i = 4`. -/
theorem c5_truncation_witness :
    ((4 - 1 < (data_rows ⟨[[.na, .str "A", .str "B", .str "C", .str "D", .str "E", .str "F", .str "G"],
        [.str "d1", .str "1", .str "2", .str "3", .str "4", .str "5", .str "6", .str "7"],
        [.str "d2", .str "1", .str "2", .str "3", .str "4", .str "5", .str "6", .str "7"],
        [.str "d3", .str "1", .str "2", .str "3", .str "4", .str "5", .str "6", .str "7"],
        [.na, .str "x", .str "x", .str "x", .str "x", .str "x", .str "x", .str "x"],
        [.str "d5", .str "1", .str "2", .str "3", .str "4", .str "5", .str "6", .str "7"]]⟩).length)
      ↔ ∀ j, 1 ≤ j → j ≤ 4 →
        ((⟨[[.na, .str "A", .str "B", .str "C", .str "D", .str "E", .str "F", .str "G"],
        [.str "d1", .str "1", .str "2", .str "3", .str "4", .str "5", .str "6", .str "7"],
        [.str "d2", .str "1", .str "2", .str "3", .str "4", .str "5", .str "6", .str "7"],
        [.str "d3", .str "1", .str "2", .str "3", .str "4", .str "5", .str "6", .str "7"],
        [.na, .str "x", .str "x", .str "x", .str "x", .str "x", .str "x", .str "x"],
        [.str "d5", .str "1", .str "2", .str "3", .str "4", .str "5", .str "6", .str "7"]]⟩ : PTable).iloc j 0).isNa = false)
    ∧ (4 - 1 < (data_rows ⟨[[.na, .str "A", .str "B", .str "C", .str "D", .str "E", .str "F", .str "G"],
        [.str "d1", .str "1", .str "2", .str "3", .str "4", .str "5", .str "6", .str "7"],
        [.str "d2", .str "1", .str "2", .str "3", .str "4", .str "5", .str "6", .str "7"],
        [.str "d3", .str "1", .str "2", .str "3", .str "4", .str "5", .str "6", .str "7"],
        [.na, .str "x", .str "x", .str "x", .str "x", .str "x", .str "x", .str "x"],
        [.str "d5", .str "1", .str "2", .str "3", .str "4", .str "5", .str "6", .str "7"]]⟩).length →
        (data_rows ⟨[[.na, .str "A", .str "B", .str "C", .str "D", .str "E", .str "F", .str "G"],
        [.str "d1", .str "1", .str "2", .str "3", .str "4", .str "5", .str "6", .str "7"],
        [.str "d2", .str "1", .str "2", .str "3", .str "4", .str "5", .str "6", .str "7"],
        [.str "d3", .str "1", .str "2", .str "3", .str "4", .str "5", .str "6", .str "7"],
        [.na, .str "x", .str "x", .str "x", .str "x", .str "x", .str "x", .str "x"],
        [.str "d5", .str "1", .str "2", .str "3", .str "4", .str "5", .str "6", .str "7"]]⟩).getD (4 - 1) []
          = (List.range' 1 7).map fun j => convert_cell
            ((⟨[[.na, .str "A", .str "B", .str "C", .str "D", .str "E", .str "F", .str "G"],
        [.str "d1", .str "1", .str "2", .str "3", .str "4", .str "5", .str "6", .str "7"],
        [.str "d2", .str "1", .str "2", .str "3", .str "4", .str "5", .str "6", .str "7"],
        [.str "d3", .str "1", .str "2", .str "3", .str "4", .str "5", .str "6", .str "7"],
        [.na, .str "x", .str "x", .str "x", .str "x", .str "x", .str "x", .str "x"],
        [.str "d5", .str "1", .str "2", .str "3", .str "4", .str "5", .str "6", .str "7"]]⟩ : PTable).iloc 4 j)) :=
  c5_truncation _ (by decide) (by decide) 4 (by decide) (by decide)

/-- C10: for every CSV table passing the shape check and every starting
grid, the room-making and populate steps raise no `IndexError`: every
checked list assignment is in bounds and the transformation returns a
grid. -/
theorem c10_populate_in_bounds (t : PTable) (g : Grid)
    (h8 : 8 ≤ t.shape1) (h2 : 2 ≤ t.shape0) :
    ∃ G, writeBlock g (date_label t) (header_row t) (data_rows t) = some G :=
  ⟨_, writeBlock_eq_some g _ _ _ (length_header_row t) (data_rows_length_eq t)⟩

/-- Witness for C10 at the edge case: source row 1 has a blank column 0,
so the parsed data region is empty, against an empty starting grid. -/
theorem c10_populate_in_bounds_witness :
    ∃ G, writeBlock []
      (date_label ⟨[[.na, .str "A", .str "B", .str "C", .str "D", .str "E", .str "F", .str "G"],
        [.na, .str "1", .str "2", .str "3", .str "4", .str "5", .str "6", .str "7"]]⟩)
      (header_row ⟨[[.na, .str "A", .str "B", .str "C", .str "D", .str "E", .str "F", .str "G"],
        [.na, .str "1", .str "2", .str "3", .str "4", .str "5", .str "6", .str "7"]]⟩)
      (data_rows ⟨[[.na, .str "A", .str "B", .str "C", .str "D", .str "E", .str "F", .str "G"],
        [.na, .str "1", .str "2", .str "3", .str "4", .str "5", .str "6", .str "7"]]⟩) = some G :=
  c10_populate_in_bounds _ [] (by decide) (by decide)

/-- C3: for every valid block and every starting grid, a successful write
yields a grid in which columns `[START_COL, START_COL+7)` hold the block's
label (row 0, with the remaining merged columns blank), header (row 1) and
data (rows 2..2+len); columns `[START_COL+7, START_COL+9)` of those rows
are blank; and every cell value previously at column `c ≥ START_COL` is
now at column `c + BLOCK_WIDTH` of the same row. -/
theorem c3_invariant_after_write (b : Block) (g : Grid) (hb : b.valid) (G : Grid)
    (hG : writeBlock g b.label b.header b.rows = some G) :
    (gridCell G 0 START_COL = .str b.label
      ∧ ∀ j, 1 ≤ j → j < 7 → gridCell G 0 (START_COL + j) = blank)
    ∧ (∀ j, j < 7 → gridCell G 1 (START_COL + j) = .str (b.header.getD j ""))
    ∧ (∀ r, r < b.rows.length → ∀ c, c < 7 →
        gridCell G (r + 2) (START_COL + c) = (b.rows.getD r []).getD c blank)
    ∧ (∀ i, i < b.rows.length + 2 → ∀ j, START_COL + 7 ≤ j → j < START_COL + BLOCK_WIDTH →
        gridCell G i j = blank)
    ∧ (∀ i c, START_COL ≤ c → gridCell G i (c + BLOCK_WIDTH) = gridCell g i c) := by
  have hSC : START_COL = 9 := rfl
  have hBW : BLOCK_WIDTH = 9 := rfl
  rw [writeBlock_eq_some g b.label b.header b.rows hb.1 hb.2] at hG
  injection hG with hG
  subst hG
  refine ⟨⟨?_, ?_⟩, ?_, ?_, ?_, ?_⟩
  · rw [gridCell_writeBlockT, if_neg (by omega), if_neg (by omega), if_pos ⟨rfl, rfl⟩]
  · intro j h1j hj7
    rw [gridCell_writeBlockT, if_neg (by omega), if_neg (by omega),
      if_neg (by rintro ⟨-, hc⟩; omega), if_neg (by omega), if_pos (by omega)]
  · intro j hj
    rw [gridCell_writeBlockT, if_neg (by omega), if_pos ⟨rfl, by omega, by omega⟩,
      show START_COL + j - START_COL = j by omega]
  · intro r hr c hc
    rw [gridCell_writeBlockT, if_pos ⟨by omega, by omega, by omega, by omega⟩,
      show r + 2 - 2 = r by omega, show START_COL + c - START_COL = c by omega]
  · intro i hi j hj1 hj2
    rw [gridCell_writeBlockT, if_neg (by rintro ⟨-, -, -, hc⟩; omega),
      if_neg (by rintro ⟨-, -, hc⟩; omega), if_neg (by rintro ⟨-, hc⟩; omega),
      if_neg (by omega), if_pos (by omega)]
  · intro i c hc
    rw [gridCell_writeBlockT, if_neg (by rintro ⟨-, -, -, hc2⟩; omega),
      if_neg (by rintro ⟨-, -, hc2⟩; omega), if_neg (by rintro ⟨-, hc2⟩; omega),
      if_neg (by omega), if_neg (by omega),
      show c + BLOCK_WIDTH - BLOCK_WIDTH = c by omega]

/-- Witness for C3: a block with one data row written to an empty grid. -/
theorem c3_invariant_after_write_witness :
    (gridCell (writeBlockT [] "2024-01-05" ["A", "B", "C", "D", "E", "F", "G"]
        [[.int 1, .rat (mkRat 5 2), .str "x", .nan, .nan, .nan, .nan]]) 0 START_COL
        = .str "2024-01-05"
      ∧ ∀ j, 1 ≤ j → j < 7 → gridCell (writeBlockT [] "2024-01-05"
        ["A", "B", "C", "D", "E", "F", "G"]
        [[.int 1, .rat (mkRat 5 2), .str "x", .nan, .nan, .nan, .nan]]) 0 (START_COL + j) = blank)
    ∧ (∀ j, j < 7 → gridCell (writeBlockT [] "2024-01-05"
        ["A", "B", "C", "D", "E", "F", "G"]
        [[.int 1, .rat (mkRat 5 2), .str "x", .nan, .nan, .nan, .nan]]) 1 (START_COL + j)
        = .str (["A", "B", "C", "D", "E", "F", "G"].getD j ""))
    ∧ (∀ r, r < [[Cell.int 1, .rat (mkRat 5 2), .str "x", .nan, .nan, .nan, .nan]].length →
        ∀ c, c < 7 → gridCell (writeBlockT [] "2024-01-05"
          ["A", "B", "C", "D", "E", "F", "G"]
          [[.int 1, .rat (mkRat 5 2), .str "x", .nan, .nan, .nan, .nan]]) (r + 2) (START_COL + c)
        = ([[Cell.int 1, .rat (mkRat 5 2), .str "x", .nan, .nan, .nan, .nan]].getD r []).getD c blank)
    ∧ (∀ i, i < [[Cell.int 1, .rat (mkRat 5 2), .str "x", .nan, .nan, .nan, .nan]].length + 2 →
        ∀ j, START_COL + 7 ≤ j → j < START_COL + BLOCK_WIDTH →
        gridCell (writeBlockT [] "2024-01-05" ["A", "B", "C", "D", "E", "F", "G"]
          [[.int 1, .rat (mkRat 5 2), .str "x", .nan, .nan, .nan, .nan]]) i j = blank)
    ∧ (∀ i c, START_COL ≤ c → gridCell (writeBlockT [] "2024-01-05"
        ["A", "B", "C", "D", "E", "F", "G"]
        [[.int 1, .rat (mkRat 5 2), .str "x", .nan, .nan, .nan, .nan]]) i (c + BLOCK_WIDTH)
        = gridCell [] i c) :=
  c3_invariant_after_write
    ⟨"2024-01-05", ["A", "B", "C", "D", "E", "F", "G"],
      [[.int 1, .rat (mkRat 5 2), .str "x", .nan, .nan, .nan, .nan]]⟩ []
    ⟨by decide, by decide⟩ _
    (writeBlock_eq_some _ _ _ _ (by decide) (by decide))

/-- C9: a successful write never changes the value of any cell in columns
0 through `START_COL - 1` of any pre-existing row. -/
theorem c9_frame_left_columns (b : Block) (g : Grid) (hb : b.valid) (G : Grid)
    (hG : writeBlock g b.label b.header b.rows = some G)
    (i c : Nat) (hc : c < START_COL) :
    gridCell G i c = gridCell g i c := by
  have hSC : START_COL = 9 := rfl
  have hBW : BLOCK_WIDTH = 9 := rfl
  rw [writeBlock_eq_some g b.label b.header b.rows hb.1 hb.2] at hG
  injection hG with hG
  subst hG
  rw [gridCell_writeBlockT, if_neg (by rintro ⟨-, -, hc2, -⟩; omega),
    if_neg (by rintro ⟨-, hc2, -⟩; omega), if_neg (by rintro ⟨-, hc2⟩; omega),
    if_pos hc]

/-- Witness for C9 at a concrete grid with a cell in column 0. -/
theorem c9_frame_left_columns_witness :
    gridCell (writeBlockT [[.str "keep"]] "L" ["A", "B", "C", "D", "E", "F", "G"] []) 0 0
      = gridCell [[.str "keep"]] 0 0 :=
  c9_frame_left_columns ⟨"L", ["A", "B", "C", "D", "E", "F", "G"], []⟩ [[.str "keep"]]
    ⟨by decide, by decide⟩ _
    (writeBlock_eq_some _ _ _ _ (by decide) (by decide)) 0 0 (by decide)

/-- C4: writing N valid blocks in turn against an initially empty sheet
lays them out at offsets `START_COL + k * BLOCK_WIDTH`, the k-th most
recently written block at offset index k with its label, header and data
values intact, and the column ranges of distinct blocks are disjoint. -/
theorem c4_repeated_runs_layout (bs : List Block) (hN : 1 ≤ bs.length)
    (hv : ∀ b ∈ bs, b.valid) (k : Nat) (hk : k < bs.length) :
    blockAt (writeBlocks bs []) (START_COL + k * BLOCK_WIDTH)
      (bs.getD (bs.length - 1 - k) ⟨"", [], []⟩)
    ∧ ∀ k2, k2 < bs.length → k2 ≠ k →
        START_COL + k * BLOCK_WIDTH + 7 ≤ START_COL + k2 * BLOCK_WIDTH
        ∨ START_COL + k2 * BLOCK_WIDTH + 7 ≤ START_COL + k * BLOCK_WIDTH := by
  constructor
  · have hlay := writeBlocks_layout bs [] (bs.length - 1 - k) (by omega)
    rw [show bs.length - 1 - (bs.length - 1 - k) = k from by omega] at hlay
    exact hlay
  · intro k2 hk2 hne
    have hBW : BLOCK_WIDTH = 9 := rfl
    rw [hBW]
    rcases Nat.lt_or_ge k k2 with h | h
    · left; omega
    · right; omega

/-- Witness for C4 with two concrete blocks, evaluated at `k = 1` (the
older block, shifted right by one `BLOCK_WIDTH`). -/
theorem c4_repeated_runs_layout_witness :
    blockAt (writeBlocks [⟨"old", ["A", "B", "C", "D", "E", "F", "G"],
        [[.int 1, .int 2, .int 3, .int 4, .int 5, .int 6, .int 7]]⟩,
      ⟨"new", ["H", "I", "J", "K", "L", "M", "N"],
        [[.str "a", .str "b", .str "c", .str "d", .str "e", .str "f", .str "g"]]⟩] [])
      (START_COL + 1 * BLOCK_WIDTH)
      ([⟨"old", ["A", "B", "C", "D", "E", "F", "G"],
        [[.int 1, .int 2, .int 3, .int 4, .int 5, .int 6, .int 7]]⟩,
      (⟨"new", ["H", "I", "J", "K", "L", "M", "N"],
        [[.str "a", .str "b", .str "c", .str "d", .str "e", .str "f", .str "g"]]⟩ : Block)].getD
        ([⟨"old", ["A", "B", "C", "D", "E", "F", "G"],
        [[.int 1, .int 2, .int 3, .int 4, .int 5, .int 6, .int 7]]⟩,
      (⟨"new", ["H", "I", "J", "K", "L", "M", "N"],
        [[.str "a", .str "b", .str "c", .str "d", .str "e", .str "f", .str "g"]]⟩ : Block)].length - 1 - 1)
        ⟨"", [], []⟩)
    ∧ ∀ k2, k2 < [⟨"old", ["A", "B", "C", "D", "E", "F", "G"],
        [[.int 1, .int 2, .int 3, .int 4, .int 5, .int 6, .int 7]]⟩,
      (⟨"new", ["H", "I", "J", "K", "L", "M", "N"],
        [[.str "a", .str "b", .str "c", .str "d", .str "e", .str "f", .str "g"]]⟩ : Block)].length →
        k2 ≠ 1 →
        START_COL + 1 * BLOCK_WIDTH + 7 ≤ START_COL + k2 * BLOCK_WIDTH
        ∨ START_COL + k2 * BLOCK_WIDTH + 7 ≤ START_COL + 1 * BLOCK_WIDTH :=
  c4_repeated_runs_layout _ (by decide)
    (by
      intro b hb
      simp only [List.mem_cons, List.mem_singleton] at hb
      rcases hb with hb | hb | hb
      all_goals first
        | (subst hb; exact ⟨by decide, by decide⟩)
        | cases hb)
    1 (by decide)

/-- C1 as stated is false on the code: worksheet resolution precedes the
CSV shape check, so a malformed 5-column CSV aimed at an absent worksheet
still creates the worksheet — the skip is logged, but the destination
sheet's state is mutated from absent to present. -/
theorem c1_counterexample :
    (⟨[[.str "a", .str "b", .str "c", .str "d", .str "e"],
        [.str "f", .str "g", .str "h", .str "i", .str "j"]]⟩ : PTable).shape1 = 5
    ∧ absentSheet.present = false
    ∧ update_sheet
        ⟨true, .ok ⟨[[.str "a", .str "b", .str "c", .str "d", .str "e"],
          [.str "f", .str "g", .str "h", .str "i", .str "j"]]⟩, true, true, true⟩
        absentSheet
        = .skipped ⟨true, [], []⟩
    ∧ (update_sheet
        ⟨true, .ok ⟨[[.str "a", .str "b", .str "c", .str "d", .str "e"],
          [.str "f", .str "g", .str "h", .str "i", .str "j"]]⟩, true, true, true⟩
        absentSheet).state.present = true := by
  decide

/-- C1 (amended): for every CSV whose table has fewer than 8 columns or
fewer than 2 rows, `update_sheet` logs a skip and writes no cell values and
issues no merge request — an existing worksheet's grid and merges are
returned unchanged; however, because worksheet resolution precedes the
shape check, an absent worksheet has already been created (empty) by the
time of the skip. -/
theorem c1_zero_value_mutation (env : Env) (st : SheetState) (t : PTable)
    (hcsv : env.csv = .ok t) (hbad : t.shape1 < 8 ∨ t.shape0 < 2)
    (hres : st.present = true ∨ env.addWorksheetOk = true) :
    update_sheet env st = .skipped (if st.present then st else ⟨true, [], []⟩) := by
  by_cases hp : st.present
  · simp only [update_sheet, update_sheet_body, if_pos hp, hcsv, if_pos hbad]
  · rcases hres with h | haw
    · exact absurd h hp
    · simp only [update_sheet, update_sheet_body, if_neg hp, if_pos haw, hcsv,
        if_pos hbad]

/-- Witness for C1 (amended): a 1-row CSV against an existing sheet with
content; the outcome is a skip with grid and merges untouched. -/
theorem c1_zero_value_mutation_witness :
    update_sheet ⟨false, .ok ⟨[[.str "only"]]⟩, true, true, true⟩
      ⟨true, [[.str "keep"]], [labelMerge]⟩
      = .skipped (if (⟨true, [[.str "keep"]], [labelMerge]⟩ : SheetState).present
          then (⟨true, [[.str "keep"]], [labelMerge]⟩ : SheetState) else ⟨true, [], []⟩) :=
  c1_zero_value_mutation ⟨false, .ok ⟨[[.str "only"]]⟩, true, true, true⟩
    ⟨true, [[.str "keep"]], [labelMerge]⟩ ⟨[[.str "only"]]⟩ rfl
    (by decide) (Or.inl rfl)

/-- C2 as stated is false on the code: in the end-to-end scenario the four
empty input cells of the data row come back as float NaN (pandas reads an
empty field as NaN, and `convert_cell` returns the NaN float unchanged),
not as empty strings. -/
theorem c2_counterexample :
    gridCell (update_sheet
        ⟨true, .ok ⟨[[.na, .str "A", .str "B", .str "C", .str "D", .str "E", .str "F", .str "G"],
          [.str "2024-01-05", .str "1", .str "2.5", .str "x", .na, .na, .na, .na]]⟩,
          true, true, true⟩
        ⟨true, [], []⟩).state.grid 2 (START_COL + 3) = Cell.nan
    ∧ gridCell (update_sheet
        ⟨true, .ok ⟨[[.na, .str "A", .str "B", .str "C", .str "D", .str "E", .str "F", .str "G"],
          [.str "2024-01-05", .str "1", .str "2.5", .str "x", .na, .na, .na, .na]]⟩,
          true, true, true⟩
        ⟨true, [], []⟩).state.grid 2 (START_COL + 3) ≠ .str "" := by
  decide

/-- C2 (amended): writing the CSV with label `"2024-01-05"`, header
`A..G`, and data row `["1","2.5","x","","","",""]` to an empty sheet
succeeds and produces: row 1 column `START_COL` holding `"2024-01-05"`
with the label-row merge issued over columns
`[START_COL, START_COL+7)`; row 2 columns `START_COL..START_COL+6` equal
to the header; and row 3 equal to `[1, 2.5, "x", nan, nan, nan, nan]` —
the four empty input cells come back as float NaN, not empty strings. -/
theorem c2_end_to_end :
    update_sheet
        ⟨true, .ok ⟨[[.na, .str "A", .str "B", .str "C", .str "D", .str "E", .str "F", .str "G"],
          [.str "2024-01-05", .str "1", .str "2.5", .str "x", .na, .na, .na, .na]]⟩,
          true, true, true⟩ ⟨true, [], []⟩
      = .success (update_sheet
        ⟨true, .ok ⟨[[.na, .str "A", .str "B", .str "C", .str "D", .str "E", .str "F", .str "G"],
          [.str "2024-01-05", .str "1", .str "2.5", .str "x", .na, .na, .na, .na]]⟩,
          true, true, true⟩ ⟨true, [], []⟩).state
    ∧ (let G := (update_sheet
        ⟨true, .ok ⟨[[.na, .str "A", .str "B", .str "C", .str "D", .str "E", .str "F", .str "G"],
          [.str "2024-01-05", .str "1", .str "2.5", .str "x", .na, .na, .na, .na]]⟩,
          true, true, true⟩ ⟨true, [], []⟩).state
      gridCell G.grid 0 START_COL = .str "2024-01-05"
      ∧ G.merges = [labelMerge]
      ∧ gridCell G.grid 1 START_COL = .str "A"
      ∧ gridCell G.grid 1 (START_COL + 1) = .str "B"
      ∧ gridCell G.grid 1 (START_COL + 2) = .str "C"
      ∧ gridCell G.grid 1 (START_COL + 3) = .str "D"
      ∧ gridCell G.grid 1 (START_COL + 4) = .str "E"
      ∧ gridCell G.grid 1 (START_COL + 5) = .str "F"
      ∧ gridCell G.grid 1 (START_COL + 6) = .str "G"
      ∧ gridCell G.grid 2 START_COL = .int 1
      ∧ gridCell G.grid 2 (START_COL + 1) = .rat (mkRat 5 2)
      ∧ gridCell G.grid 2 (START_COL + 2) = .str "x"
      ∧ gridCell G.grid 2 (START_COL + 3) = Cell.nan
      ∧ gridCell G.grid 2 (START_COL + 4) = Cell.nan
      ∧ gridCell G.grid 2 (START_COL + 5) = Cell.nan
      ∧ gridCell G.grid 2 (START_COL + 6) = Cell.nan) := by
  decide

/-- C8: `update_sheet` never propagates an exception — every raise inside
the body is caught and surfaced as a logged errored outcome — and the
per-file loop of `main` therefore produces one outcome for every file:
a failure on one file never prevents the remaining files from being
processed. -/
theorem c8_no_escape (files : List (String × Env)) (sp : Spreadsheet)
    (env : Env) (st stE : SheetState)
    (hraise : update_sheet_body env st = .error stE) :
    (processFiles files sp).2.length = files.length
    ∧ update_sheet env st = .errored stE := by
  constructor
  · induction files generalizing sp with
    | nil => rfl
    | cons f rest ih => simp [processFiles, ih]
  · rw [update_sheet, hraise]

/-- Witness for C8: two files whose worksheet creation fails; both are
processed and the raise is caught. -/
theorem c8_no_escape_witness :
    (processFiles [("a", ⟨false, .ok ⟨[]⟩, true, true, true⟩),
        ("b", ⟨false, .ok ⟨[]⟩, true, true, true⟩)] []).2.length = 2
    ∧ update_sheet ⟨false, .ok ⟨[]⟩, true, true, true⟩ absentSheet
        = .errored absentSheet :=
  c8_no_escape [("a", ⟨false, .ok ⟨[]⟩, true, true, true⟩),
      ("b", ⟨false, .ok ⟨[]⟩, true, true, true⟩)] []
    ⟨false, .ok ⟨[]⟩, true, true, true⟩ absentSheet absentSheet rfl

end CsvSheet
